import Mathlib

/-
Verification of the tushare-sync repository's fetch-retry-ingest pipeline
with blue/green table swap, against its natural-language specification.

The relational store is modelled as an association list from table names to
row lists, together with the store's index listing and unique-key listing
(both lists of (table, name) pairs).  The in-memory table-state cache of
`db_handler.DatabaseHandler` (`_existing_tables`) is a list of table names.
Every definition below is a direct translation of the corresponding Python
function in `src/`.
-/

set_option autoImplicit false

namespace TushareSync

/- A row of `daily` / `daily_qfq`: the two key columns used by the unique
   constraint `uniq_ts_trade_date (ts_code(20), trade_date(20))` plus an
   opaque payload standing for the remaining columns. -/
structure Row where
  ts_code : String
  trade_date : String
  payload : Int
deriving DecidableEq, Repr

/- Association-list helpers: first-match lookup, erase-all-by-key,
   update-all-by-key and all-values-at-key. -/

def lookupKey {α : Type} : List (String × α) → String → Option α
  | [], _ => none
  | p :: ps, k => if p.1 = k then some p.2 else lookupKey ps k

def eraseKey {α : Type} : List (String × α) → String → List (String × α)
  | [], _ => []
  | p :: ps, k => if p.1 = k then eraseKey ps k else p :: eraseKey ps k

def updateKey {α : Type} : List (String × α) → String → α → List (String × α)
  | [], _, _ => []
  | p :: ps, k, v => if p.1 = k then (k, v) :: updateKey ps k v else p :: updateKey ps k v

def valuesAt {α : Type} : List (String × α) → String → List α
  | [], _ => []
  | p :: ps, k => if p.1 = k then p.2 :: valuesAt ps k else valuesAt ps k

@[simp] theorem lookupKey_nil {α : Type} (k : String) :
    lookupKey ([] : List (String × α)) k = none := rfl

@[simp] theorem lookupKey_cons {α : Type} (p : String × α) (ps : List (String × α)) (k : String) :
    lookupKey (p :: ps) k = if p.1 = k then some p.2 else lookupKey ps k := rfl

@[simp] theorem lookupKey_eraseKey_self {α : Type} (l : List (String × α)) (k : String) :
    lookupKey (eraseKey l k) k = none := by
  induction l with
  | nil => rfl
  | cons p ps ih =>
    by_cases h : p.1 = k <;> simp [eraseKey, h, ih]

theorem lookupKey_eraseKey_ne {α : Type} (l : List (String × α)) (k k' : String)
    (h : k' ≠ k) : lookupKey (eraseKey l k) k' = lookupKey l k' := by
  have hk : ¬ k = k' := fun e => h e.symm
  induction l with
  | nil => rfl
  | cons p ps ih =>
    by_cases hp : p.1 = k
    · have hpk : ¬ p.1 = k' := fun e => h (e ▸ hp ▸ rfl)
      simp [eraseKey, hp, hpk, ih, hk]
    · by_cases hq : p.1 = k' <;> simp [eraseKey, hp, hq, ih, h, hk]

theorem lookupKey_updateKey_self {α : Type} (l : List (String × α)) (k : String) (v : α) :
    lookupKey (updateKey l k v) k = (lookupKey l k).map (fun _ => v) := by
  induction l with
  | nil => rfl
  | cons p ps ih =>
    by_cases hp : p.1 = k <;> simp [updateKey, hp, ih]

theorem lookupKey_updateKey_ne {α : Type} (l : List (String × α)) (k k' : String) (v : α)
    (h : k' ≠ k) : lookupKey (updateKey l k v) k' = lookupKey l k' := by
  have hk : ¬ k = k' := fun e => h e.symm
  induction l with
  | nil => rfl
  | cons p ps ih =>
    by_cases hp : p.1 = k
    · simp [updateKey, hp, hk, ih]
    · by_cases hq : p.1 = k' <;> simp [updateKey, hp, hq, ih, h, hk]

/- The relational store: tables with their rows, the index listing
   (pairs of table name and index name, as reported by
   `inspector.get_indexes`), and unique-key constraints. -/
structure Store where
  tables : List (String × List Row)
  indexNames : List (String × String)
  uniqueKeys : List (String × String)
deriving DecidableEq, Repr

def Store.hasTable (s : Store) (t : String) : Bool :=
  (lookupKey s.tables t).isSome

def Store.getTable (s : Store) (t : String) : List Row :=
  (lookupKey s.tables t).getD []

/- `df.to_sql(name, engine, if_exists='replace')`: drop any prior table of
   that name (losing its indexes and constraints) and create it afresh. -/
def Store.setTable (s : Store) (t : String) (rows : List Row) : Store :=
  { tables := (t, rows) :: eraseKey s.tables t
    indexNames := eraseKey s.indexNames t
    uniqueKeys := eraseKey s.uniqueKeys t }

/- `DROP TABLE t`. -/
def Store.dropTable (s : Store) (t : String) : Store :=
  { tables := eraseKey s.tables t
    indexNames := eraseKey s.indexNames t
    uniqueKeys := eraseKey s.uniqueKeys t }

/- In-place replacement of a table's rows (used for INSERT / TRUNCATE,
   which keep indexes and constraints). -/
def Store.updateRows (s : Store) (t : String) (rows : List Row) : Store :=
  { s with tables := updateKey s.tables t rows }

/- `ALTER TABLE src RENAME TO dst`: fails (None) when the source table is
   missing or the destination name is taken; indexes move with the table. -/
def Store.renameTable (s : Store) (src dst : String) : Option Store :=
  match lookupKey s.tables src with
  | none => none
  | some rows =>
    if s.hasTable dst then none
    else some
      { tables := (dst, rows) :: eraseKey s.tables src
        indexNames := (valuesAt s.indexNames src).map (fun n => (dst, n)) ++ eraseKey s.indexNames src
        uniqueKeys := (valuesAt s.uniqueKeys src).map (fun n => (dst, n)) ++ eraseKey s.uniqueKeys src }

/- The state a `DatabaseHandler` instance sees: the store reachable through
   its engine, plus its `_existing_tables` cache. -/
structure HandlerState where
  store : Store
  cache : List String
deriving DecidableEq, Repr

/- ------------------------------------------------------------------
   src/move_qfq_table.py : move_qfq_table  (the SwapCoordinator)
   ------------------------------------------------------------------ -/

inductive SwapOp
  | dropTable (t : String)
  | renameTable (src dst : String)
  | commit
deriving DecidableEq, Repr

/- `move_qfq_table`, parameterised by the two table names (the script uses
   newT = "daily_qfq_new", oldT = "daily_qfq").  Checks that the new table
   exists; drops the old table if present (commit); renames new to old
   (commit).  A failed rename is caught by the outer `except` and yields
   False with the drop already committed.  The handler's cache is never
   touched. -/
def move_qfq_table (st : HandlerState) (newT oldT : String) :
    HandlerState × Bool × List SwapOp :=
  if st.store.hasTable newT = false then (st, false, [])
  else
    let dropped :=
      if st.store.hasTable oldT then
        ({ st with store := st.store.dropTable oldT },
          [SwapOp.dropTable oldT, SwapOp.commit])
      else (st, ([] : List SwapOp))
    match (dropped.1.store.renameTable newT oldT) with
    | some s2 =>
        ({ dropped.1 with store := s2 }, true,
          dropped.2 ++ [SwapOp.renameTable newT oldT, SwapOp.commit])
    | none => (dropped.1, false, dropped.2)

/- Concrete sample state used by closed witnesses and counterexamples:
   the store holds only `daily_qfq_new` with one row, and the handler's
   cache lists both swap-related names. -/
def sampleRow : Row := ⟨"000001.SZ", "20240101", 1⟩

def swapSampleState : HandlerState :=
  { store := { tables := [("daily_qfq_new", [sampleRow])], indexNames := [], uniqueKeys := [] }
    cache := ["daily_qfq_new", "daily_qfq"] }

/-- C1: counterexample.  After a successful `move_qfq_table` swap the
handler's table-state cache is left exactly as it was: the name
`daily_qfq_new` is still cached as existing even though the table is gone,
so the claim that both names are invalidated in the cache is false. -/
theorem move_qfq_table_cache_not_invalidated :
    (move_qfq_table swapSampleState "daily_qfq_new" "daily_qfq").2.1 = true
    ∧ (move_qfq_table swapSampleState "daily_qfq_new" "daily_qfq").1.cache
        = ["daily_qfq_new", "daily_qfq"]
    ∧ "daily_qfq_new" ∈ (move_qfq_table swapSampleState "daily_qfq_new" "daily_qfq").1.cache
    ∧ (move_qfq_table swapSampleState "daily_qfq_new" "daily_qfq").1.store.hasTable "daily_qfq_new"
        = false := by
  decide

/-- C1 (amended): when `new_table` exists, `move_qfq_table` executes
drop-then-rename (drop `old_table` if present, then rename, each step
followed by its own commit); after it returns success `old_table` holds
exactly the rows that were in `new_table` and `new_table` no longer
exists — but neither name is invalidated in the table-state cache, which
is left untouched. -/
theorem move_qfq_table_swap_correct (st : HandlerState) (newT oldT : String)
    (h1 : st.store.hasTable newT = true) (h2 : newT ≠ oldT) :
    (move_qfq_table st newT oldT).2.1 = true
    ∧ lookupKey (move_qfq_table st newT oldT).1.store.tables oldT
        = lookupKey st.store.tables newT
    ∧ (move_qfq_table st newT oldT).1.store.hasTable newT = false
    ∧ (move_qfq_table st newT oldT).1.cache = st.cache
    ∧ (move_qfq_table st newT oldT).2.2
        = (if st.store.hasTable oldT then
            [SwapOp.dropTable oldT, SwapOp.commit,
              SwapOp.renameTable newT oldT, SwapOp.commit]
          else [SwapOp.renameTable newT oldT, SwapOp.commit]) := by
  have hne : oldT ≠ newT := fun e => h2 e.symm
  rcases hq : lookupKey st.store.tables newT with _ | rows
  · simp [Store.hasTable, hq] at h1
  have h1' : (lookupKey st.store.tables newT).isSome = true := h1
  by_cases hold : (lookupKey st.store.tables oldT).isSome = true
  · have e1 : lookupKey (st.store.dropTable oldT).tables newT = some rows := by
      simpa [Store.dropTable, lookupKey_eraseKey_ne _ _ _ h2] using hq
    have e2 : (lookupKey (st.store.dropTable oldT).tables oldT).isSome = false := by
      simp [Store.dropTable]
    have hren : (st.store.dropTable oldT).renameTable newT oldT = some
        { tables := (oldT, rows) :: eraseKey (st.store.dropTable oldT).tables newT
          indexNames := (valuesAt (st.store.dropTable oldT).indexNames newT).map (fun n => (oldT, n))
            ++ eraseKey (st.store.dropTable oldT).indexNames newT
          uniqueKeys := (valuesAt (st.store.dropTable oldT).uniqueKeys newT).map (fun n => (oldT, n))
            ++ eraseKey (st.store.dropTable oldT).uniqueKeys newT } := by
      simp [Store.renameTable, e1, Store.hasTable, e2]
    simp [move_qfq_table, Store.hasTable, h1', hold, hren, hq, hne]
  · have hnf : (lookupKey st.store.tables oldT).isSome = false := by
      simpa using hold
    have hren : st.store.renameTable newT oldT = some
        { tables := (oldT, rows) :: eraseKey st.store.tables newT
          indexNames := (valuesAt st.store.indexNames newT).map (fun n => (oldT, n))
            ++ eraseKey st.store.indexNames newT
          uniqueKeys := (valuesAt st.store.uniqueKeys newT).map (fun n => (oldT, n))
            ++ eraseKey st.store.uniqueKeys newT } := by
      simp [Store.renameTable, hq, Store.hasTable, hnf]
    simp [move_qfq_table, Store.hasTable, h1', hnf, hren, hq, hne]

/-- C1 witness: the amended swap theorem evaluated on the sample state. -/
theorem move_qfq_table_swap_correct_witness :
    swapSampleState.store.hasTable "daily_qfq_new" = true
    ∧ lookupKey (move_qfq_table swapSampleState "daily_qfq_new" "daily_qfq").1.store.tables "daily_qfq"
        = some [sampleRow] := by
  refine ⟨by decide, ?_⟩
  have h := move_qfq_table_swap_correct swapSampleState "daily_qfq_new" "daily_qfq"
    (by decide) (by decide)
  exact h.2.1.trans (by decide)

/-- C5: when `new_table` does not exist, `move_qfq_table` returns a reported
failure (False) without raising, performs no store operation, and leaves the
whole state — in particular `old_table`, whether present or absent —
exactly as it was. -/
theorem move_qfq_table_missing_new_table (st : HandlerState) (newT oldT : String)
    (h : st.store.hasTable newT = false) :
    move_qfq_table st newT oldT = (st, false, []) := by
  simp [move_qfq_table, h]

/-- C5 witness: swapping from an absent shadow table on the sample state
fails and changes nothing. -/
theorem move_qfq_table_missing_new_table_witness :
    swapSampleState.store.hasTable "daily_qfq_missing" = false
    ∧ move_qfq_table swapSampleState "daily_qfq_missing" "daily_qfq"
        = (swapSampleState, false, []) :=
  ⟨by decide, move_qfq_table_missing_new_table swapSampleState "daily_qfq_missing" "daily_qfq"
    (by decide)⟩

/- ------------------------------------------------------------------
   src/daily_qfq.py : get_qfq_data  (the RetryingFetcher)
   src/sync_ths_concepts.py : fetch_concept_daily
   ------------------------------------------------------------------ -/

/- One attempt's outcome at the external data source. -/
inductive FetchOutcome
  | raised (msg : String)
  | noneFrame
  | frame (rs : List Row)
deriving DecidableEq, Repr

/- The value a fetch hands back, in the spec's result vocabulary: either a
   DataFrame (possibly empty) or an Error value carrying a message.  The
   code below only ever produces `frame`. -/
inductive FetchResult
  | frame (rs : List Row)
  | error (msg : String)
deriving DecidableEq, Repr

def FetchResult.isError : FetchResult → Bool
  | .error _ => true
  | .frame _ => false

/- A fetch run: the returned value, how many times the source was called,
   the sleeps performed (in seconds) and the error messages printed. -/
structure FetchRun where
  result : FetchResult
  calls : Nat
  sleeps : List Nat
  logged : List String
deriving DecidableEq, Repr

/- `df['ts_code'] = ts_code` on a non-empty frame. -/
def stampTsCode (tsCode : String) (rs : List Row) : List Row :=
  rs.map (fun r => { r with ts_code := tsCode })

/- The `for attempt in range(max_retries)` loop of `get_qfq_data`: a raised
   failure sleeps `(attempt + 1) * 2` seconds and retries unless it was the
   last attempt, in which case the message is printed and the loop falls
   through to `return pd.DataFrame()`; a `None` frame or a returned frame
   ends the loop at once (an empty frame is returned unstamped). -/
def qfqAttempts (tsCode : String) (src : Nat → FetchOutcome) : List Nat → FetchRun
  | [] => ⟨.frame [], 0, [], []⟩
  | a :: rest =>
    match src a with
    | .noneFrame => ⟨.frame [], 1, [], []⟩
    | .frame rs =>
        if rs.isEmpty then ⟨.frame rs, 1, [], []⟩
        else ⟨.frame (stampTsCode tsCode rs), 1, [], []⟩
    | .raised m =>
        match rest with
        | [] => ⟨.frame [], 1, [], [m]⟩
        | b :: bs =>
            let r := qfqAttempts tsCode src (b :: bs)
            ⟨r.result, r.calls + 1, (a + 1) * 2 :: r.sleeps, r.logged⟩

def get_qfq_data (tsCode : String) (src : Nat → FetchOutcome) (maxRetries : Nat) : FetchRun :=
  qfqAttempts tsCode src (List.range maxRetries)

/- The retry loop of `fetch_concept_daily`: on a raised failure it sleeps
   `backoff * (attempt + 1)` seconds even after the final attempt, then
   prints the last error and returns an empty frame; a returned frame ends
   the loop at once.  Defaults: maxRetries = 3, backoff = 15. -/
def fetchConceptAttempts (src : Nat → FetchOutcome) (backoff : Nat) : List Nat → FetchRun
  | [] => ⟨.frame [], 0, [], []⟩
  | a :: rest =>
    match src a with
    | .noneFrame => ⟨.frame [], 1, [], []⟩
    | .frame rs => ⟨.frame rs, 1, [], []⟩
    | .raised m =>
        let r := fetchConceptAttempts src backoff rest
        ⟨r.result, r.calls + 1, backoff * (a + 1) :: r.sleeps,
          if rest.isEmpty then [m] else r.logged⟩

def fetch_concept_daily (src : Nat → FetchOutcome) (maxRetries backoff : Nat) : FetchRun :=
  fetchConceptAttempts src backoff (List.range maxRetries)

def alwaysFailSrc : Nat → FetchOutcome := fun _ => FetchOutcome.raised "boom"

def failTwiceSrc : Nat → FetchOutcome := fun n =>
  if n < 2 then FetchOutcome.raised "temporary" else FetchOutcome.frame [sampleRow]

/-- C2: counterexample.  When every attempt fails, `get_qfq_data` does not
return an Error result carrying the last exception's message: it returns an
empty DataFrame (indistinguishable from "no data"), merely printing the
message.  Moreover `fetch_concept_daily`'s backoff base is 15 seconds by
default, not 2, and it sleeps even after the final attempt. -/
theorem get_qfq_data_failure_is_empty_not_error :
    (get_qfq_data "000001.SZ" alwaysFailSrc 3).result = FetchResult.frame []
    ∧ (get_qfq_data "000001.SZ" alwaysFailSrc 3).result.isError = false
    ∧ (get_qfq_data "000001.SZ" alwaysFailSrc 3).calls = 3
    ∧ (get_qfq_data "000001.SZ" alwaysFailSrc 3).logged = ["boom"]
    ∧ (fetch_concept_daily alwaysFailSrc 3 15).sleeps = [15, 30, 45] := by
  decide

/-- C2 (amended): `get_qfq_data` retries a raised failure up to 3 attempts,
sleeping `(attempt + 1) * 2` seconds between attempts; a source that fails
twice and then succeeds yields the successful rows (stamped with the
ts_code) after 3 calls and sleeps of 2 and 4 seconds; a source that always
fails yields — after exactly 3 calls, never raising — an *empty frame*
with the last exception's message only printed, not carried in the
result. -/
theorem get_qfq_data_retry_behavior :
    (∀ (tsCode : String) (src : Nat → FetchOutcome) (rs : List Row) (m0 m1 : String),
      src 0 = FetchOutcome.raised m0 → src 1 = FetchOutcome.raised m1 →
      src 2 = FetchOutcome.frame rs → rs ≠ [] →
      get_qfq_data tsCode src 3 = ⟨.frame (stampTsCode tsCode rs), 3, [2, 4], []⟩)
    ∧ (∀ (tsCode : String) (src : Nat → FetchOutcome) (msgs : Nat → String),
      (∀ n, src n = FetchOutcome.raised (msgs n)) →
      get_qfq_data tsCode src 3 = ⟨.frame [], 3, [2, 4], [msgs 2]⟩) := by
  constructor
  · intro tsCode src rs m0 m1 h0 h1 h2 hne
    have : rs.isEmpty = false := by
      cases rs with
      | nil => exact absurd rfl hne
      | cons x xs => rfl
    simp [get_qfq_data, List.range_succ, qfqAttempts, h0, h1, h2, this]
  · intro tsCode src msgs h
    simp [get_qfq_data, List.range_succ, qfqAttempts, h 0, h 1, h 2]

/-- C2 witness: the amended retry theorem evaluated on a fail-twice source
and on an always-failing source. -/
theorem get_qfq_data_retry_behavior_witness :
    failTwiceSrc 0 = FetchOutcome.raised "temporary"
    ∧ failTwiceSrc 2 = FetchOutcome.frame [sampleRow]
    ∧ get_qfq_data "600000.SH" failTwiceSrc 3
        = ⟨.frame (stampTsCode "600000.SH" [sampleRow]), 3, [2, 4], []⟩
    ∧ get_qfq_data "600000.SH" alwaysFailSrc 3 = ⟨.frame [], 3, [2, 4], ["boom"]⟩ := by
  refine ⟨rfl, rfl, ?_, ?_⟩
  · exact get_qfq_data_retry_behavior.1 "600000.SH" failTwiceSrc [sampleRow]
      "temporary" "temporary" rfl rfl rfl (by decide)
  · exact get_qfq_data_retry_behavior.2 "600000.SH" alwaysFailSrc (fun _ => "boom")
      (fun _ => rfl)

/- ------------------------------------------------------------------
   src/daily_qfq.py : sync_daily_qfq's result-accounting loop
   (the SyncOrchestrator summary)
   ------------------------------------------------------------------ -/

/- Per work unit, what `future.result()` delivered in the `as_completed`
   loop of `sync_daily_qfq`. -/
inductive UnitOutcome
  | frame (rs : List Row)
  | raised (msg : String)
deriving DecidableEq, Repr

/- The figures the end-of-run report prints: submitted task count,
   成功 (success_count), 失败 (submitted - success_count), and
   总记录 (total_records). -/
structure RunSummary where
  submitted : Nat
  succeeded : Nat
  failed : Nat
  records : Nat
deriving DecidableEq, Repr

/- The accumulation in `sync_daily_qfq`'s completion loop: a non-empty
   frame bumps success_count and total_records; an empty frame and a raised
   exception both add nothing; the final report derives 失败 as
   submitted - success_count. -/
def syncStep (acc : Nat × Nat) (o : UnitOutcome) : Nat × Nat :=
  match o with
  | .frame rs => if rs.isEmpty then acc else (acc.1 + 1, acc.2 + rs.length)
  | .raised _ => acc

def sync_daily_qfq_summary (outcomes : List UnitOutcome) : RunSummary :=
  let r := outcomes.foldl syncStep (0, 0)
  ⟨outcomes.length, r.1, outcomes.length - r.1, r.2⟩

/- Spec-side tallies over the same outcomes: error units, empty-result
   units, successful units, and records fetched. -/
def countErrors : List UnitOutcome → Nat
  | [] => 0
  | .raised _ :: os => countErrors os + 1
  | .frame _ :: os => countErrors os

def countEmpty : List UnitOutcome → Nat
  | [] => 0
  | .raised _ :: os => countEmpty os
  | .frame rs :: os => (if rs.isEmpty then 1 else 0) + countEmpty os

def countSuccess : List UnitOutcome → Nat
  | [] => 0
  | .raised _ :: os => countSuccess os
  | .frame rs :: os => (if rs.isEmpty then 0 else 1) + countSuccess os

def totalRecords : List UnitOutcome → Nat
  | [] => 0
  | .raised _ :: os => totalRecords os
  | .frame rs :: os => rs.length + totalRecords os

/-- C3: counterexample.  A run whose single unit returns an empty frame is
reported with `failed = 1` even though zero units failed with an error:
the summary's only failure figure lumps empty-result units together with
error units, and no separate `failed_empty` count is reported. -/
theorem sync_daily_qfq_summary_lumps_empty :
    sync_daily_qfq_summary [UnitOutcome.frame []] = ⟨1, 0, 1, 0⟩
    ∧ countErrors [UnitOutcome.frame []] = 0
    ∧ countEmpty [UnitOutcome.frame []] = 1 := by
  decide

theorem syncStep_foldl (l : List UnitOutcome) (a b : Nat) :
    l.foldl syncStep (a, b) = (a + countSuccess l, b + totalRecords l) := by
  induction l generalizing a b with
  | nil => simp [countSuccess, totalRecords]
  | cons o os ih =>
    cases o with
    | raised m => simp [syncStep, countSuccess, totalRecords, ih]
    | frame rs =>
      cases hrs : rs.isEmpty with
      | true =>
        have : rs = [] := by simpa [List.isEmpty_iff] using hrs
        subst this
        simp [syncStep, countSuccess, totalRecords, ih]
      | false =>
        simp [syncStep, hrs, countSuccess, totalRecords, ih]
        omega

theorem outcome_partition (l : List UnitOutcome) :
    countSuccess l + countErrors l + countEmpty l = l.length := by
  induction l with
  | nil => simp [countSuccess, countErrors, countEmpty]
  | cons o os ih =>
    cases o with
    | raised m => simp [countSuccess, countErrors, countEmpty]; omega
    | frame rs =>
      cases hrs : rs.isEmpty <;>
        · simp [countSuccess, countErrors, countEmpty, hrs]; omega

/-- C3 (amended): for a run over U units of which F fail with errors, E
return empty and the rest succeed with R records in total, the end-of-run
report of `sync_daily_qfq` gives submitted = U, succeeded = U - F - E,
records = R, and a single failed figure F + E that lumps the empty-result
units together with the error units (no separate failed_empty count);
an empty result is never retried by the fetcher. -/
theorem sync_daily_qfq_summary_accounting :
    (∀ outcomes : List UnitOutcome,
      sync_daily_qfq_summary outcomes =
        ⟨outcomes.length, countSuccess outcomes,
          countErrors outcomes + countEmpty outcomes, totalRecords outcomes⟩
      ∧ countSuccess outcomes = outcomes.length - (countErrors outcomes + countEmpty outcomes))
    ∧ (∀ (tsCode : String) (src : Nat → FetchOutcome),
      src 0 = FetchOutcome.frame [] → (get_qfq_data tsCode src 3).calls = 1) := by
  constructor
  · intro outcomes
    have hf := syncStep_foldl outcomes 0 0
    have hp := outcome_partition outcomes
    constructor
    · simp only [sync_daily_qfq_summary, hf, RunSummary.mk.injEq, true_and]
      refine ⟨by omega, by omega, by omega⟩
    · omega
  · intro tsCode src h
    simp [get_qfq_data, List.range_succ, qfqAttempts, h]

/-- C3 witness: the amended accounting theorem on a three-unit run with one
success of one record, one error and one empty result, and the no-retry
part on a source whose first answer is empty. -/
theorem sync_daily_qfq_summary_accounting_witness :
    sync_daily_qfq_summary [UnitOutcome.frame [sampleRow], UnitOutcome.raised "boom",
        UnitOutcome.frame []] = ⟨3, 1, 2, 1⟩
    ∧ (fun _ => FetchOutcome.frame ([] : List Row)) 0 = FetchOutcome.frame []
    ∧ (get_qfq_data "600000.SH" (fun _ => FetchOutcome.frame []) 3).calls = 1 := by
  refine ⟨?_, rfl, ?_⟩
  · exact ((sync_daily_qfq_summary_accounting.1 _).1).trans (by decide)
  · exact sync_daily_qfq_summary_accounting.2 "600000.SH" _ rfl

/- ------------------------------------------------------------------
   src/db_handler.py : DatabaseHandler._create_indexes
   (the IndexProvisioner)
   ------------------------------------------------------------------ -/

/- The kind strings of `index_definitions`: 'PRIMARY KEY', 'INDEX', or
   'INDEX (c1, c2)' (a composite index over the listed columns). -/
inductive IdxKind
  | primaryKey
  | singleCol
  | multiCol (cols : List String)
deriving DecidableEq, Repr

def index_definitions : List (String × List (String × IdxKind)) :=
  [("stock_basic",
      [("ts_code", IdxKind.primaryKey), ("symbol", IdxKind.singleCol),
        ("industry", IdxKind.singleCol), ("area", IdxKind.singleCol)]),
    ("daily",
      [("ts_code", IdxKind.singleCol), ("trade_date", IdxKind.singleCol),
        ("ts_code_trade_date", IdxKind.multiCol ["ts_code", "trade_date"])]),
    ("daily_qfq",
      [("ts_code", IdxKind.singleCol), ("trade_date", IdxKind.singleCol),
        ("ts_code_trade_date", IdxKind.multiCol ["ts_code", "trade_date"])]),
    ("stock_hot_rank",
      [("stock_code", IdxKind.singleCol), ("record_date", IdxKind.singleCol),
        ("ranking", IdxKind.singleCol),
        ("stock_code_record_date", IdxKind.multiCol ["stock_code", "record_date"])])]

/- `table_name.endswith('_new')` and `table_name[:-4]`, written over the
   character list so that concrete evaluation reduces. -/
def endsWithNew (t : String) : Bool :=
  decide (t.data.reverse.take 4 = ['w', 'e', 'n', '_'])

def dropNewSuffix (t : String) : String :=
  String.mk (t.data.take (t.data.length - 4))

/- The shadow-suffix rule: a table not in `index_definitions` whose name
   ends in `_new` reuses the spec of its base name when that has one. -/
def definitionTable (tableName : String) : String :=
  if (lookupKey index_definitions tableName).isSome then tableName
  else if endsWithNew tableName then
    if (lookupKey index_definitions (dropNewSuffix tableName)).isSome then
      dropNewSuffix tableName
    else tableName
  else tableName

/- A generated `CREATE INDEX idxName ON table (col1(cap1), col2, ...)`
   statement; `none` as a cap means the column is indexed uncapped. -/
structure CreateIndex where
  idxName : String
  table : String
  cols : List (String × Option Nat)
deriving DecidableEq, Repr

/- The statement `_create_indexes` builds for one entry of the spec.
   PRIMARY KEY entries are skipped (handled at table creation).  For a
   composite index, the `'ts_code' in index_type` substring test of the
   source holds exactly when "ts_code" is among the columns.  For a single
   column, note that the stock_basic length-cap branch tests the physical
   `table_name`, not the suffix-stripped `definition_table`. -/
def buildStatement (tableName defTable idxName : String) : IdxKind → Option CreateIndex
  | IdxKind.primaryKey => none
  | IdxKind.multiCol cols =>
      if (defTable = "daily" ∨ defTable = "daily_qfq") ∧ "ts_code" ∈ cols then
        some ⟨"idx_" ++ tableName ++ "_" ++ idxName, tableName,
          [("ts_code", some 20), ("trade_date", some 20)]⟩
      else
        some ⟨"idx_" ++ tableName ++ "_" ++ idxName, tableName,
          cols.map (fun c => (c, none))⟩
  | IdxKind.singleCol =>
      if tableName = "stock_basic"
          ∧ (idxName = "symbol" ∨ idxName = "industry" ∨ idxName = "area") then
        some ⟨"idx_" ++ tableName ++ "_" ++ idxName, tableName, [(idxName, some 50)]⟩
      else if (defTable = "daily" ∨ defTable = "daily_qfq")
          ∧ (idxName = "ts_code" ∨ idxName = "trade_date") then
        some ⟨"idx_" ++ tableName ++ "_" ++ idxName, tableName, [(idxName, some 20)]⟩
      else
        some ⟨"idx_" ++ tableName ++ "_" ++ idxName, tableName, [(idxName, none)]⟩

/- The CREATE INDEX statements `_create_indexes(tableName, ...)` would
   issue given the store's index listing for the table. -/
def createIndexStatements (tableName : String) (existing : List String) : List CreateIndex :=
  match lookupKey index_definitions (definitionTable tableName) with
  | none => []
  | some defs =>
      defs.filterMap (fun d =>
        match buildStatement tableName (definitionTable tableName) d.1 d.2 with
        | none => none
        | some ci => if ci.idxName ∈ existing then none else some ci)

/- Executing one CREATE INDEX against the store: a duplicate index name is
   an error (MySQL "Duplicate key name"). -/
def execCreateIndex (s : Store) (ci : CreateIndex) : Except String Store :=
  if ci.idxName ∈ valuesAt s.indexNames ci.table then Except.error "Duplicate key name"
  else Except.ok { s with indexNames := (ci.table, ci.idxName) :: s.indexNames }

/- The `try/except` around the execute: an error is logged and swallowed. -/
def tryCreateIndex (s : Store) (ci : CreateIndex) : Store :=
  match execCreateIndex s ci with
  | Except.ok s2 => s2
  | Except.error _ => s

/- One iteration of the `for index_def in ...` loop: re-reads the index
   listing from a fresh inspector, skips when the derived name is already
   listed, otherwise attempts the create with errors caught. -/
def indexStep (tableName defTable : String) (s : Store) (d : String × IdxKind) : Store :=
  match buildStatement tableName defTable d.1 d.2 with
  | none => s
  | some ci =>
      if ci.idxName ∈ valuesAt s.indexNames tableName then s
      else tryCreateIndex s ci

def create_indexes (tableName : String) (s : Store) : Store :=
  match lookupKey index_definitions (definitionTable tableName) with
  | none => s
  | some defs => defs.foldl (indexStep tableName (definitionTable tableName)) s

@[simp] theorem valuesAt_cons {α : Type} (p : String × α) (ps : List (String × α)) (k : String) :
    valuesAt (p :: ps) k = if p.1 = k then p.2 :: valuesAt ps k else valuesAt ps k := rfl

theorem mem_valuesAt {α : Type} (l : List (String × α)) (t : String) (u : α) :
    u ∈ valuesAt l t ↔ (t, u) ∈ l := by
  induction l with
  | nil => simp [valuesAt]
  | cons p ps ih =>
    rcases p with ⟨a, b⟩
    by_cases hp : a = t
    · subst hp
      simp [valuesAt, ih, Prod.ext_iff]
    · have ht : ¬ t = a := fun e => hp e.symm
      simp [valuesAt, hp, ih, Prod.ext_iff, ht]

theorem buildStatement_table_eq (tn dt n : String) (k : IdxKind) (ci : CreateIndex)
    (h : buildStatement tn dt n k = some ci) : ci.table = tn := by
  cases k with
  | primaryKey => simp [buildStatement] at h
  | multiCol cols =>
    simp only [buildStatement] at h
    split_ifs at h <;> (simp only [Option.some.injEq] at h; subst h; rfl)
  | singleCol =>
    simp only [buildStatement] at h
    split_ifs at h <;> (simp only [Option.some.injEq] at h; subst h; rfl)

theorem tryCreateIndex_eq (s : Store) (ci : CreateIndex) :
    tryCreateIndex s ci =
      if ci.idxName ∈ valuesAt s.indexNames ci.table then s
      else { s with indexNames := (ci.table, ci.idxName) :: s.indexNames } := by
  by_cases hmem : ci.idxName ∈ valuesAt s.indexNames ci.table <;>
    simp [tryCreateIndex, execCreateIndex, hmem]

theorem indexStep_mono (tn dt u : String) (s : Store) (d : String × IdxKind)
    (h : u ∈ valuesAt s.indexNames tn) :
    u ∈ valuesAt (indexStep tn dt s d).indexNames tn := by
  unfold indexStep
  cases hb : buildStatement tn dt d.1 d.2 with
  | none => exact h
  | some ci =>
    have ht := buildStatement_table_eq tn dt d.1 d.2 ci hb
    dsimp only
    by_cases hs : ci.idxName ∈ valuesAt s.indexNames tn
    · rw [if_pos hs]; exact h
    · rw [if_neg hs, tryCreateIndex_eq, ht, if_neg hs]
      simp [h]

theorem indexStep_ensures (tn dt : String) (s : Store) (d : String × IdxKind)
    (ci : CreateIndex) (hb : buildStatement tn dt d.1 d.2 = some ci) :
    ci.idxName ∈ valuesAt (indexStep tn dt s d).indexNames tn := by
  have ht := buildStatement_table_eq tn dt d.1 d.2 ci hb
  unfold indexStep
  rw [hb]
  dsimp only
  by_cases hs : ci.idxName ∈ valuesAt s.indexNames tn
  · rw [if_pos hs]; exact hs
  · rw [if_neg hs, tryCreateIndex_eq, ht, if_neg hs]
    simp

theorem foldl_indexStep_mono (tn dt u : String) (defs : List (String × IdxKind))
    (s : Store) (h : u ∈ valuesAt s.indexNames tn) :
    u ∈ valuesAt (defs.foldl (indexStep tn dt) s).indexNames tn := by
  induction defs generalizing s with
  | nil => exact h
  | cons d ds ih => exact ih _ (indexStep_mono tn dt u s d h)

theorem foldl_indexStep_ensures (tn dt : String) (defs : List (String × IdxKind))
    (d : String × IdxKind) (ci : CreateIndex)
    (hb : buildStatement tn dt d.1 d.2 = some ci) :
    ∀ s : Store, d ∈ defs →
      ci.idxName ∈ valuesAt (defs.foldl (indexStep tn dt) s).indexNames tn := by
  induction defs with
  | nil => intro s hd; cases hd
  | cons e es ih =>
    intro s hd
    rcases List.mem_cons.mp hd with he | he
    · subst he
      exact foldl_indexStep_mono tn dt ci.idxName es _ (indexStep_ensures tn dt s d ci hb)
    · exact ih _ he

theorem foldl_indexStep_id (tn dt : String) (defs : List (String × IdxKind)) (s : Store)
    (h : ∀ d ∈ defs, ∀ ci, buildStatement tn dt d.1 d.2 = some ci →
      ci.idxName ∈ valuesAt s.indexNames tn) :
    defs.foldl (indexStep tn dt) s = s := by
  induction defs with
  | nil => rfl
  | cons d ds ih =>
    have hstep : indexStep tn dt s d = s := by
      unfold indexStep
      cases hb : buildStatement tn dt d.1 d.2 with
      | none => rfl
      | some ci => simp [h d (List.mem_cons_self d ds) ci hb]
    rw [List.foldl_cons, hstep]
    exact ih (fun d' hd' ci hb => h d' (List.mem_cons_of_mem d hd') ci hb)

theorem indexStep_nodup (tn dt : String) (s : Store) (d : String × IdxKind)
    (h : s.indexNames.Nodup) : (indexStep tn dt s d).indexNames.Nodup := by
  unfold indexStep
  cases hb : buildStatement tn dt d.1 d.2 with
  | none => exact h
  | some ci =>
    have ht := buildStatement_table_eq tn dt d.1 d.2 ci hb
    dsimp only
    by_cases hs : ci.idxName ∈ valuesAt s.indexNames tn
    · rw [if_pos hs]; exact h
    · rw [if_neg hs, tryCreateIndex_eq, ht, if_neg hs]
      refine List.Nodup.cons ?_ h
      intro hmem
      exact hs ((mem_valuesAt s.indexNames tn ci.idxName).mpr hmem)

theorem foldl_indexStep_nodup (tn dt : String) (defs : List (String × IdxKind)) :
    ∀ s : Store, s.indexNames.Nodup →
      ((defs.foldl (indexStep tn dt) s)).indexNames.Nodup := by
  induction defs with
  | nil => intro s h; exact h
  | cons d ds ih => intro s h; exact ih _ (indexStep_nodup tn dt s d h)

/-- C6: the shadow-suffix rule does look up the base spec (`daily_new`
reuses `daily`'s spec with its 20-character caps on the text columns), but
for `stock_basic_new` every generated single-column CREATE INDEX over the
text columns symbol/industry/area carries *no* length cap, because the
length-cap branch compares the physical table name against
"stock_basic" instead of the suffix-stripped logical name — contradicting
the claim that every text-column index statement includes a cap. -/
theorem create_indexes_stock_basic_new_uncapped :
    createIndexStatements "stock_basic_new" [] =
      [⟨"idx_stock_basic_new_symbol", "stock_basic_new", [("symbol", none)]⟩,
        ⟨"idx_stock_basic_new_industry", "stock_basic_new", [("industry", none)]⟩,
        ⟨"idx_stock_basic_new_area", "stock_basic_new", [("area", none)]⟩]
    ∧ createIndexStatements "stock_basic" [] =
      [⟨"idx_stock_basic_symbol", "stock_basic", [("symbol", some 50)]⟩,
        ⟨"idx_stock_basic_industry", "stock_basic", [("industry", some 50)]⟩,
        ⟨"idx_stock_basic_area", "stock_basic", [("area", some 50)]⟩]
    ∧ createIndexStatements "daily_new" [] =
      [⟨"idx_daily_new_ts_code", "daily_new", [("ts_code", some 20)]⟩,
        ⟨"idx_daily_new_trade_date", "daily_new", [("trade_date", some 20)]⟩,
        ⟨"idx_daily_new_ts_code_trade_date", "daily_new",
          [("ts_code", some 20), ("trade_date", some 20)]⟩] := by
  decide

/-- C8: index provisioning is idempotent and never raises: a second run
with the same table name leaves the store exactly as the first run left
it (every index whose derived name is already listed is skipped), a run
never introduces duplicate entries into the index listing, and a
duplicate-index error from a concurrent race is caught, leaving the store
unchanged instead of propagating. -/
theorem create_indexes_idempotent :
    (∀ (t : String) (s : Store), create_indexes t (create_indexes t s) = create_indexes t s)
    ∧ (∀ (t : String) (s : Store), s.indexNames.Nodup →
        (create_indexes t s).indexNames.Nodup)
    ∧ (∀ (s : Store) (ci : CreateIndex), ci.idxName ∈ valuesAt s.indexNames ci.table →
        tryCreateIndex s ci = s) := by
  refine ⟨?_, ?_, ?_⟩
  · intro t s
    unfold create_indexes
    cases hd : lookupKey index_definitions (definitionTable t) with
    | none => rfl
    | some defs =>
      exact foldl_indexStep_id t (definitionTable t) defs _
        (fun d hdm ci hb => foldl_indexStep_ensures t (definitionTable t) defs d ci hb s hdm)
  · intro t s h
    unfold create_indexes
    cases hd : lookupKey index_definitions (definitionTable t) with
    | none => exact h
    | some defs => exact foldl_indexStep_nodup t (definitionTable t) defs s h
  · intro s ci h
    simp [tryCreateIndex_eq, h]

/-- C8 witness: provisioning `daily` twice on an empty store is the same
as provisioning it once, the listing it builds has no duplicates, and a
racing duplicate create on the resulting store is swallowed. -/
theorem create_indexes_idempotent_witness :
    create_indexes "daily" (create_indexes "daily" (Store.mk [] [] []))
      = create_indexes "daily" (Store.mk [] [] [])
    ∧ (((Store.mk [] [] []) : Store).indexNames.Nodup
        ∧ (create_indexes "daily" (Store.mk [] [] [])).indexNames.Nodup)
    ∧ ("idx_daily_ts_code" ∈
          valuesAt (create_indexes "daily" (Store.mk [] [] [])).indexNames "daily"
        ∧ tryCreateIndex (create_indexes "daily" (Store.mk [] [] []))
            ⟨"idx_daily_ts_code", "daily", [("ts_code", some 20)]⟩
          = create_indexes "daily" (Store.mk [] [] [])) := by
  refine ⟨create_indexes_idempotent.1 "daily" _,
    ⟨by decide, create_indexes_idempotent.2.1 "daily" _ (by decide)⟩,
    ⟨by decide, create_indexes_idempotent.2.2 _ _ (by decide)⟩⟩

/- ------------------------------------------------------------------
   src/db_handler.py : ensure_table_exists / insert_data / empty_table /
   get_max_date  (the TableStateCache + ShadowTableWriter)
   ------------------------------------------------------------------ -/

theorem valuesAt_eraseKey_ne {α : Type} (l : List (String × α)) (k k' : String)
    (h : k' ≠ k) : valuesAt (eraseKey l k) k' = valuesAt l k' := by
  have hk : ¬ k = k' := fun e => h e.symm
  induction l with
  | nil => rfl
  | cons p ps ih =>
    by_cases hp : p.1 = k
    · have hpk : ¬ p.1 = k' := fun e => h (e ▸ hp ▸ rfl)
      simp [eraseKey, hp, hpk, ih, hk]
    · by_cases hq : p.1 = k' <;> simp [eraseKey, hp, hq, ih, h, hk]

/- Events observable in the existence-check paths: a read of the
   `_existing_tables` cache (with whether `_table_lock` was held and
   whether it hit) and an authoritative `inspector.has_table` metadata
   query with its answer. -/
inductive ExistOp
  | cacheRead (t : String) (locked hit : Bool)
  | metaQuery (t : String) (found : Bool)
deriving DecidableEq, Repr

/- `ensure_table_exists`: cache check under the lock; on a miss an
   inspector query; a missing table is created from the DataFrame
   (`to_sql(..., if_exists='replace')`) and indexed; the cache is updated
   in every non-hit branch. -/
def ensure_table_exists (st : HandlerState) (t : String) (data : List Row) :
    HandlerState × List ExistOp :=
  if t ∈ st.cache then (st, [ExistOp.cacheRead t true true])
  else if st.store.hasTable t then
    ({ st with cache := t :: st.cache },
      [ExistOp.cacheRead t true false, ExistOp.metaQuery t true])
  else
    ({ store := create_indexes t (st.store.setTable t data), cache := t :: st.cache },
      [ExistOp.cacheRead t true false, ExistOp.metaQuery t false])

/- The unique constraint `insert_data` adds to daily / daily_qfq. -/
def uniqKeyName : String := "uniq_ts_trade_date"

/- The per-statement units of work of `insert_data`'s de-duplicating path;
   in the source each of them is followed by its own commit. -/
inductive DbStep
  | createReplace (t : String) (rows : List Row)
  | addUniqueKey (t : String)
  | insertIgnoreFrom (target temp : String)
  | appendRows (t : String) (rows : List Row)
  | drop (t : String)
deriving DecidableEq, Repr

/- Two rows collide on the unique key `(ts_code(20), trade_date(20))`. -/
def sameKey (a b : Row) : Bool :=
  decide (a.ts_code.data.take 20 = b.ts_code.data.take 20)
    && decide (a.trade_date.data.take 20 = b.trade_date.data.take 20)

/- `INSERT IGNORE INTO target SELECT * FROM temp` under the unique key:
   each staged row is appended unless a row with the same key is already
   present (including rows inserted earlier in the same statement). -/
def insertIgnoreRows (old add : List Row) : List Row :=
  add.foldl (fun acc r => if acc.any (fun x => sameKey x r) then acc else acc ++ [r]) old

def execStep (s : Store) : DbStep → Store
  | DbStep.createReplace t rows => s.setTable t rows
  | DbStep.addUniqueKey t =>
      if uniqKeyName ∈ valuesAt s.uniqueKeys t then s
      else { s with uniqueKeys := (t, uniqKeyName) :: s.uniqueKeys }
  | DbStep.insertIgnoreFrom target temp =>
      match lookupKey s.tables target with
      | none => s
      | some old =>
          if uniqKeyName ∈ valuesAt s.uniqueKeys target then
            s.updateRows target (insertIgnoreRows old (s.getTable temp))
          else
            s.updateRows target (old ++ s.getTable temp)
  | DbStep.appendRows t rows =>
      match lookupKey s.tables t with
      | none => s.setTable t rows
      | some old => s.updateRows t (old ++ rows)
  | DbStep.drop t => s.dropTable t

def execSteps (s : Store) (steps : List DbStep) : Store :=
  steps.foldl execStep s

/- `temp_{table_name}_{int(datetime.now().timestamp())}`. -/
def tempTableName (table : String) (ts : Nat) : String :=
  "temp_" ++ table ++ "_" ++ toString ts

def dedupSteps (table temp : String) (data : List Row) : List DbStep :=
  [DbStep.createReplace temp data, DbStep.addUniqueKey table,
    DbStep.insertIgnoreFrom table temp, DbStep.drop temp]

/- `insert_data`: an empty batch is skipped with False before any store
   operation; otherwise the table is ensured unless the cache already
   knows it, and for daily / daily_qfq the batch goes through the
   stage / add-unique / INSERT IGNORE / drop sequence (each statement
   committed on its own), while other tables get a plain append. -/
def insert_data (st : HandlerState) (table : String) (data : List Row) (ts : Nat) :
    HandlerState × List DbStep × Bool :=
  if data.isEmpty then (st, [], false)
  else
    let st1 := if table ∈ st.cache then st else (ensure_table_exists st table data).1
    if table = "daily_qfq" ∨ table = "daily" then
      let steps := dedupSteps table (tempTableName table ts) data
      ({ st1 with store := execSteps st1.store steps }, steps, true)
    else
      ({ st1 with store := execStep st1.store (DbStep.appendRows table data) },
        [DbStep.appendRows table data], true)

/- `empty_table`: cache consulted first (without the lock), inspector
   fallback on a miss, TRUNCATE when the table exists; the cache is never
   updated here.  A stale cache hit for a dropped table makes the
   TRUNCATE fail, which is caught and returned as False. -/
def empty_table (st : HandlerState) (t : String) : HandlerState × List ExistOp × Bool :=
  if t ∈ st.cache then
    match lookupKey st.store.tables t with
    | some _ =>
        ({ st with store := st.store.updateRows t [] }, [ExistOp.cacheRead t false true], true)
    | none => (st, [ExistOp.cacheRead t false true], false)
  else if st.store.hasTable t then
    ({ st with store := st.store.updateRows t [] },
      [ExistOp.cacheRead t false false, ExistOp.metaQuery t true], true)
  else
    (st, [ExistOp.cacheRead t false false, ExistOp.metaQuery t false], true)

/- `SELECT MAX(trade_date)`: None on an empty table. -/
def maxDate (rows : List Row) : Option String :=
  rows.foldl
    (fun acc r =>
      match acc with
      | none => some r.trade_date
      | some m => some (if m ≤ r.trade_date then r.trade_date else m))
    none

/- `get_max_date`: cache consulted first (without the lock), inspector
   fallback on a miss with a positive result cached; None when the table
   does not exist or the query fails. -/
def get_max_date (st : HandlerState) (t : String) : HandlerState × List ExistOp × Option String :=
  if t ∈ st.cache then
    match lookupKey st.store.tables t with
    | some rows => (st, [ExistOp.cacheRead t false true], maxDate rows)
    | none => (st, [ExistOp.cacheRead t false true], none)
  else if st.store.hasTable t then
    ({ st with cache := t :: st.cache },
      [ExistOp.cacheRead t false false, ExistOp.metaQuery t true],
      maxDate (st.store.getTable t))
  else
    (st, [ExistOp.cacheRead t false false, ExistOp.metaQuery t false], none)

/-- C10: `insert_data` invoked with an empty record batch returns False
and performs no store operation at all: the state is unchanged and the
trace of issued statements is empty. -/
theorem insert_data_empty_no_ops (st : HandlerState) (table : String) (ts : Nat) :
    insert_data st table [] ts = (st, [], false) := rfl

theorem execStep_addUnique_tables (s : Store) (t : String) :
    (execStep s (DbStep.addUniqueKey t)).tables = s.tables := by
  by_cases hm : uniqKeyName ∈ valuesAt s.uniqueKeys t <;> simp [execStep, hm]

theorem execStep_addUnique_mem (s : Store) (t : String) :
    uniqKeyName ∈ valuesAt (execStep s (DbStep.addUniqueKey t)).uniqueKeys t := by
  by_cases hm : uniqKeyName ∈ valuesAt s.uniqueKeys t <;> simp [execStep, hm]

theorem execStep_insertIgnore (A : Store) (table temp : String) (old : List Row)
    (h1 : lookupKey A.tables table = some old)
    (hm : uniqKeyName ∈ valuesAt A.uniqueKeys table) :
    execStep A (DbStep.insertIgnoreFrom table temp)
      = A.updateRows table (insertIgnoreRows old (A.getTable temp)) := by
  simp [execStep, h1, hm]

theorem execSteps_dedup (s : Store) (table temp : String) (data old : List Row)
    (hold : lookupKey s.tables table = some old) (htne : temp ≠ table) :
    execSteps s (dedupSteps table temp data)
      = ((execStep (s.setTable temp data) (DbStep.addUniqueKey table)).updateRows table
          (insertIgnoreRows old data)).dropTable temp := by
  have hne2 : table ≠ temp := fun e => htne e.symm
  have f1a : lookupKey (s.setTable temp data).tables table = some old := by
    simp [Store.setTable, htne, lookupKey_eraseKey_ne _ _ _ hne2, hold]
  have f1c : lookupKey (s.setTable temp data).tables temp = some data := by
    simp [Store.setTable]
  have f2t : (execStep (s.setTable temp data) (DbStep.addUniqueKey table)).tables
      = (s.setTable temp data).tables := execStep_addUnique_tables _ _
  have f2m : uniqKeyName ∈
      valuesAt (execStep (s.setTable temp data) (DbStep.addUniqueKey table)).uniqueKeys table :=
    execStep_addUnique_mem _ _
  have h1 : lookupKey (execStep (s.setTable temp data) (DbStep.addUniqueKey table)).tables table
      = some old := by rw [f2t]; exact f1a
  have h2 : (execStep (s.setTable temp data) (DbStep.addUniqueKey table)).getTable temp
      = data := by
    unfold Store.getTable; rw [f2t, f1c]; rfl
  have e3 := execStep_insertIgnore
    (execStep (s.setTable temp data) (DbStep.addUniqueKey table)) table temp old h1 f2m
  rw [h2] at e3
  show execStep (execStep (execStep (execStep s (DbStep.createReplace temp data))
      (DbStep.addUniqueKey table)) (DbStep.insertIgnoreFrom table temp)) (DbStep.drop temp) = _
  rw [show execStep s (DbStep.createReplace temp data) = s.setTable temp data from rfl, e3]
  rfl

def c4Store : Store := ⟨[("daily_qfq", [sampleRow])], [], []⟩

def c4Row : Row := ⟨"000002.SZ", "20240102", 2⟩

/-- C4: counterexample.  Each of the four statements of the de-duplicating
write path commits on its own: after the first committed step (the
`to_sql` staging) and before the final drop, the uniquely-named temporary
table is an ordinary committed table, present and visible to any reader
of the store, and the committed state is neither the prior state nor the
final one — so the sequence is not a single unit of work and a crash
mid-way does leave a half-written temp table behind. -/
theorem insert_data_temp_table_visible_midway :
    (insert_data ⟨c4Store, ["daily_qfq"]⟩ "daily_qfq" [c4Row] 5).2.1
      = dedupSteps "daily_qfq" (tempTableName "daily_qfq" 5) [c4Row]
    ∧ (dedupSteps "daily_qfq" (tempTableName "daily_qfq" 5) [c4Row]).length = 4
    ∧ (execSteps c4Store
        ((dedupSteps "daily_qfq" (tempTableName "daily_qfq" 5) [c4Row]).take 1)).hasTable
        (tempTableName "daily_qfq" 5) = true
    ∧ execSteps c4Store ((dedupSteps "daily_qfq" (tempTableName "daily_qfq" 5) [c4Row]).take 1)
        ≠ c4Store
    ∧ execSteps c4Store ((dedupSteps "daily_qfq" (tempTableName "daily_qfq" 5) [c4Row]).take 1)
        ≠ execSteps c4Store (dedupSteps "daily_qfq" (tempTableName "daily_qfq" 5) [c4Row]) := by
  decide

/-- C4 (amended): for the de-duplicating write path, inserting a non-empty
batch stages it into the uniquely-named temp table, ensures the uniqueness
constraint on the target (ignoring an already-exists error), inserts from
the temp table into the target skipping duplicate keys, and drops the temp
table; afterwards the target holds its prior rows plus the new
non-duplicate rows and the temp table is gone — but the four statements
are four separately committed units of work, and after the first commit
alone the temp table is already visible to other readers of the store. -/
theorem insert_data_dedup_correct (st : HandlerState) (table : String)
    (data old : List Row) (ts : Nat)
    (hname : table = "daily_qfq" ∨ table = "daily")
    (hcache : table ∈ st.cache)
    (hold : lookupKey st.store.tables table = some old)
    (hfresh : st.store.hasTable (tempTableName table ts) = false)
    (hdata : data ≠ []) :
    (insert_data st table data ts).2.2 = true
    ∧ (insert_data st table data ts).2.1 = dedupSteps table (tempTableName table ts) data
    ∧ (insert_data st table data ts).1.cache = st.cache
    ∧ lookupKey (insert_data st table data ts).1.store.tables table
        = some (insertIgnoreRows old data)
    ∧ (insert_data st table data ts).1.store.hasTable (tempTableName table ts) = false
    ∧ (execSteps st.store ((dedupSteps table (tempTableName table ts) data).take 1)).hasTable
        (tempTableName table ts) = true := by
  have htne : tempTableName table ts ≠ table := by
    intro e
    rw [e] at hfresh
    simp [Store.hasTable, hold] at hfresh
  have hne2 : table ≠ tempTableName table ts := fun e => htne e.symm
  have hie : data.isEmpty = false := by
    cases data with
    | nil => exact absurd rfl hdata
    | cons x xs => rfl
  have hmain := execSteps_dedup st.store table (tempTableName table ts) data old hold htne
  have hins : insert_data st table data ts
      = ({ st with store := execSteps st.store (dedupSteps table (tempTableName table ts) data) },
          dedupSteps table (tempTableName table ts) data, true) := by
    simp [insert_data, hie, hcache, hname]
  refine ⟨by rw [hins], by rw [hins], by rw [hins], ?_, ?_, ?_⟩
  · rw [hins]
    dsimp only
    rw [hmain]
    unfold Store.dropTable Store.updateRows
    dsimp only
    rw [lookupKey_eraseKey_ne _ _ _ hne2, lookupKey_updateKey_self,
      execStep_addUnique_tables]
    have f1a : lookupKey (st.store.setTable (tempTableName table ts) data).tables table
        = some old := by
      simp [Store.setTable, htne, lookupKey_eraseKey_ne _ _ _ hne2, hold]
    rw [f1a]
    rfl
  · rw [hins]
    dsimp only
    rw [hmain]
    simp [Store.dropTable, Store.hasTable]
  · show (execStep st.store (DbStep.createReplace (tempTableName table ts) data)).hasTable
      (tempTableName table ts) = true
    simp [execStep, Store.setTable, Store.hasTable]

/-- C4 witness: the amended de-duplication theorem evaluated on a store
holding `daily_qfq` with one row, inserting a batch of one fresh row. -/
theorem insert_data_dedup_correct_witness :
    lookupKey c4Store.tables "daily_qfq" = some [sampleRow]
    ∧ c4Store.hasTable (tempTableName "daily_qfq" 5) = false
    ∧ lookupKey (insert_data ⟨c4Store, ["daily_qfq"]⟩ "daily_qfq" [c4Row] 5).1.store.tables
        "daily_qfq" = some (insertIgnoreRows [sampleRow] [c4Row])
    ∧ (insert_data ⟨c4Store, ["daily_qfq"]⟩ "daily_qfq" [c4Row] 5).1.store.hasTable
        (tempTableName "daily_qfq" 5) = false := by
  refine ⟨by decide, by decide, ?_, ?_⟩
  · exact (insert_data_dedup_correct ⟨c4Store, ["daily_qfq"]⟩ "daily_qfq" [c4Row] [sampleRow] 5
      (Or.inl rfl) (by decide) (by decide) (by decide) (by decide)).2.2.2.1
  · exact (insert_data_dedup_correct ⟨c4Store, ["daily_qfq"]⟩ "daily_qfq" [c4Row] [sampleRow] 5
      (Or.inl rfl) (by decide) (by decide) (by decide) (by decide)).2.2.2.2.1

def c7State : HandlerState := ⟨⟨[("daily", [sampleRow])], [], []⟩, []⟩

/-- C7: counterexample.  `empty_table` on a cache miss does fall back to
the authoritative metadata query (and correctly truncates the table the
store reports), but it reads the cache *without* holding the lock and it
does **not** populate the cache with the result: the cache is still empty
afterwards, refuting the claim that the existence check reads the cache
under the lock and populates it on a miss. -/
theorem empty_table_does_not_populate_cache :
    (empty_table c7State "daily").2.2 = true
    ∧ (empty_table c7State "daily").2.1
        = [ExistOp.cacheRead "daily" false false, ExistOp.metaQuery "daily" true]
    ∧ (empty_table c7State "daily").1.cache = [] := by
  decide

/-- C7 (amended): every existence check consults the in-memory cache
first and, on a cache miss, falls back to an authoritative metadata query
against the store, so a table is never treated as absent merely because
its name is missing from the cache: on a miss, `ensure_table_exists`
(which reads the cache under the lock) records the store's true answer
and populates the cache; `empty_table` (reading without the lock) still
truncates a table the store reports present and leaves the cache
unpopulated; `get_max_date` (reading without the lock) populates the
cache on a positive answer and returns None only when the store itself
lacks the table. -/
theorem existence_check_cache_fallback :
    (∀ (st : HandlerState) (t : String) (data : List Row), t ∈ st.cache →
      (ensure_table_exists st t data) = (st, [ExistOp.cacheRead t true true]))
    ∧ (∀ (st : HandlerState) (t : String) (data : List Row), t ∉ st.cache →
      (ensure_table_exists st t data).2
          = [ExistOp.cacheRead t true false, ExistOp.metaQuery t (st.store.hasTable t)]
        ∧ t ∈ (ensure_table_exists st t data).1.cache)
    ∧ (∀ (st : HandlerState) (t : String), t ∉ st.cache →
      (empty_table st t).2.1
          = [ExistOp.cacheRead t false false, ExistOp.metaQuery t (st.store.hasTable t)]
        ∧ (empty_table st t).1.cache = st.cache
        ∧ (st.store.hasTable t = true →
            lookupKey (empty_table st t).1.store.tables t = some []))
    ∧ (∀ (st : HandlerState) (t : String), t ∉ st.cache →
      (get_max_date st t).2.1
          = [ExistOp.cacheRead t false false, ExistOp.metaQuery t (st.store.hasTable t)]
        ∧ (st.store.hasTable t = true → t ∈ (get_max_date st t).1.cache)
        ∧ (st.store.hasTable t = false → (get_max_date st t).2.2 = none)) := by
  refine ⟨?_, ?_, ?_, ?_⟩
  · intro st t data hc
    simp [ensure_table_exists, hc]
  · intro st t data hc
    cases hex : st.store.hasTable t <;>
      simp [ensure_table_exists, hc, hex]
  · intro st t hc
    cases hex : st.store.hasTable t
    · have hnone : lookupKey st.store.tables t = none := by
        rcases hl : lookupKey st.store.tables t with _ | rows
        · rfl
        · simp [Store.hasTable, hl] at hex
      simp [empty_table, hc, hex, hnone]
    · rcases hl : lookupKey st.store.tables t with _ | rows
      · simp [Store.hasTable, hl] at hex
      · refine ⟨by simp [empty_table, hc, hex], by simp [empty_table, hc, hex], fun _ => ?_⟩
        simp [empty_table, hc, hex, Store.updateRows, lookupKey_updateKey_self, hl]
  · intro st t hc
    cases hex : st.store.hasTable t <;>
      simp [get_max_date, hc, hex]

/-- C7 witness: the amended fallback theorem evaluated on a handler whose
cache is empty while the store holds `daily`, and on a missing table. -/
theorem existence_check_cache_fallback_witness :
    ("daily" ∈ c7State.cache) = False
    ∧ (ensure_table_exists c7State "daily" []).2
        = [ExistOp.cacheRead "daily" true false, ExistOp.metaQuery "daily" true]
    ∧ lookupKey (empty_table c7State "daily").1.store.tables "daily" = some []
    ∧ (get_max_date c7State "missing_table").2.2 = none := by
  refine ⟨by simp [c7State], ?_, ?_, ?_⟩
  · exact ((existence_check_cache_fallback.2.1 c7State "daily" [] (by decide)).1).trans
      (by decide)
  · exact (existence_check_cache_fallback.2.2.1 c7State "daily" (by decide)).2.2 (by decide)
  · exact (existence_check_cache_fallback.2.2.2 c7State "missing_table" (by decide)).2.2
      (by decide)

/- ------------------------------------------------------------------
   src/db_handler.py : the module-level singleton `_db_handler` and the
   wrappers get_db_handler / get_db_engine / insert_data / empty_table
   ------------------------------------------------------------------ -/

/- The module's global state: the `_db_handler` slot and how many
   `DatabaseHandler` instances have been constructed in this process. -/
structure PMod where
  handler : Option HandlerState
  created : Nat
deriving DecidableEq, Repr

/- `DatabaseHandler.__init__`: connects to the store and seeds
   `_existing_tables` with the inspector's current table listing. -/
def newHandler (s : Store) : HandlerState :=
  ⟨s, s.tables.map Prod.fst⟩

/- `get_db_handler`: lazily constructs the singleton on the first call,
   then always returns the same instance. -/
def get_db_handler (s : Store) (m : PMod) : PMod × HandlerState :=
  match m.handler with
  | some h => (m, h)
  | none => (⟨some (newHandler s), m.created + 1⟩, newHandler s)

def get_db_engine (s : Store) (m : PMod) : PMod × Store :=
  ((get_db_handler s m).1, (get_db_handler s m).2.store)

/- The module-level wrappers: each fetches the singleton and invokes the
   corresponding method on it; the instance's state changes persist in the
   module (in Python by in-place mutation of the shared object). -/
def insert_data_module (s : Store) (m : PMod) (table : String) (data : List Row) (ts : Nat) :
    PMod × Bool :=
  let r := get_db_handler s m
  let w := insert_data r.2 table data ts
  ({ r.1 with handler := some w.1 }, w.2.2)

def empty_table_module (s : Store) (m : PMod) (table : String) : PMod × Bool :=
  let r := get_db_handler s m
  let w := empty_table r.2 table
  ({ r.1 with handler := some w.1 }, w.2.2)

/-- C9: `get_db_handler` lazily constructs the handler on the first call
(bumping the construction count exactly once) and every later call —
regardless of the live store — returns that same instance without
constructing another; the module-level helpers `insert_data`,
`empty_table` and `get_db_engine` all operate on exactly that shared
instance, and the handler state (hence the table cache and its lock) they
leave behind is what the next `get_db_handler` call hands out: one
process-wide instance, not per-caller state. -/
theorem get_db_handler_singleton :
    (∀ (s : Store) (m : PMod), m.handler = none →
      get_db_handler s m = (⟨some (newHandler s), m.created + 1⟩, newHandler s))
    ∧ (∀ (s : Store) (m : PMod) (h : HandlerState), m.handler = some h →
      get_db_handler s m = (m, h))
    ∧ (∀ (s s2 : Store) (m : PMod),
      get_db_handler s2 (get_db_handler s m).1 = ((get_db_handler s m).1, (get_db_handler s m).2))
    ∧ (∀ (s s2 : Store) (m : PMod) (table : String) (data : List Row) (ts : Nat),
      (get_db_handler s2 (insert_data_module s m table data ts).1).2
        = (insert_data (get_db_handler s m).2 table data ts).1)
    ∧ (∀ (s s2 : Store) (m : PMod) (table : String),
      (get_db_handler s2 (empty_table_module s m table).1).2
        = (empty_table (get_db_handler s m).2 table).1)
    ∧ (∀ (s : Store) (m : PMod), (get_db_engine s m).2 = (get_db_handler s m).2.store) := by
  refine ⟨?_, ?_, ?_, ?_, ?_, ?_⟩
  · intro s m h
    simp [get_db_handler, h]
  · intro s m hh h
    simp [get_db_handler, h]
  · intro s s2 m
    cases h : m.handler <;> simp [get_db_handler, h]
  · intro s s2 m table data ts
    cases h : m.handler <;> simp [insert_data_module, get_db_handler, h]
  · intro s s2 m table
    cases h : m.handler <;> simp [empty_table_module, get_db_handler, h]
  · intro s m
    rfl

/-- C9 witness: starting from an unset module slot over the sample store,
the first call constructs the singleton, the second call returns the very
same instance without a new construction, and `empty_table`'s update is
what the next `get_db_handler` hands out. -/
theorem get_db_handler_singleton_witness :
    (PMod.mk none 0).handler = none
    ∧ get_db_handler c4Store ⟨none, 0⟩ = (⟨some (newHandler c4Store), 1⟩, newHandler c4Store)
    ∧ get_db_handler c4Store (get_db_handler c4Store ⟨none, 0⟩).1
        = ((get_db_handler c4Store ⟨none, 0⟩).1, (get_db_handler c4Store ⟨none, 0⟩).2)
    ∧ (get_db_handler c4Store (empty_table_module c4Store ⟨none, 0⟩ "daily_qfq").1).2
        = (empty_table (get_db_handler c4Store ⟨none, 0⟩).2 "daily_qfq").1 := by
  exact ⟨rfl, get_db_handler_singleton.1 c4Store ⟨none, 0⟩ rfl,
    get_db_handler_singleton.2.2.1 c4Store c4Store ⟨none, 0⟩,
    get_db_handler_singleton.2.2.2.2.1 c4Store c4Store ⟨none, 0⟩ "daily_qfq"⟩

end TushareSync
